import Mathlib

/-!
Verification of the dotf symlink core (symlink status classification,
conflict detection/resolution, backup manifest management) against its
natural-language specification.

The Rust core (src/core/symlinks/{manager,conflict,backup}.rs) is generic
over a FileSystem capability (traits/filesystem.rs) and a Prompt capability
(traits/prompt.rs).  We shallowly embed the core as explicit state-passing
functions over an in-memory filesystem state, whose shape follows the
repository's own executable model of the capability (MockFileSystem:
a content map for plain files, a list of directories, and a link-value map
for symlinks), with the fallibility of copy_file / read_link /
read_to_string as in the production adapter (core/filesystem/operations.rs):
copying from a path that holds no readable content fails, reading an absent
link fails.  The Prompt collaborator is modelled as a queued script of
select answers, as the repository's MockPrompt does; the display message and
option labels do not influence the chosen index.  File contents are modelled
as an inductive so that the JSON-serialized backup manifest round-trips
exactly (standing for serde_json serialization, which is lossless on the
manifest type).
-/

namespace Dotf

/-- A UTC timestamp at second precision, embedding the chrono
DateTime<Utc> values used by backup.rs. -/
structure Timestamp where
  year : Nat
  month : Nat
  day : Nat
  hour : Nat
  minute : Nat
  second : Nat
deriving DecidableEq, Repr

/-- Zero-pad a number to two digits, as the chrono format specifiers
m, d, H, M, S do. -/
def pad2 (n : Nat) : String :=
  if n < 10 then "0" ++ toString n else toString n

/-- Zero-pad a number to four digits, as the chrono format specifier Y does. -/
def pad4 (n : Nat) : String :=
  if n < 10 then "000" ++ toString n
  else if n < 100 then "00" ++ toString n
  else if n < 1000 then "0" ++ toString n
  else toString n

/-- Embeds the formatting of a timestamp with the chrono format string
used by backup_file (year month day, underscore, hour minute second). -/
def formatTimestamp (t : Timestamp) : String :=
  pad4 t.year ++ pad2 t.month ++ pad2 t.day ++ "_" ++
    pad2 t.hour ++ pad2 t.minute ++ pad2 t.second

/-- Splitting a character list on the path separator, keeping empty
components (as String::split_on does). -/
def splitPathAux : List Char → List Char → List String
  | [], acc => [String.mk acc.reverse]
  | c :: rest, acc =>
    if c == '/' then String.mk acc.reverse :: splitPathAux rest []
    else splitPathAux rest (c :: acc)

/-- The components of a path, split on the separator. -/
def splitPath (p : String) : List String :=
  splitPathAux p.toList []

/-- Joining path components with the separator. -/
def joinSlash : List String → String
  | [] => ""
  | [x] => x
  | x :: rest => x ++ "/" ++ joinSlash rest

/-- Embeds Path::file_name().unwrap_or_default() as used by backup_file:
the final non-empty path component (ignoring trailing slashes and
single-dot components), or the empty string when there is none. -/
def basename (p : String) : String :=
  let comps := (splitPath p).filter (fun c => !(c == "") && !(c == "."))
  match comps.getLast? with
  | some c => if c == ".." then "" else c
  | none => ""

/-- Embeds Path::parent() as used by create_symlinks: the path with its
final component removed, none for the filesystem root or the empty path. -/
def parentDir (p : String) : Option String :=
  if p == "" || p == "/" then none
  else
    match splitPath p with
    | [] => none
    | [_] => some ""
    | comps => some (joinSlash comps.dropLast)

/-- The error kinds of error/types.rs reachable from the symlink core. -/
inductive DotfError where
  | ioError : String → DotfError
  | config : String → DotfError
  | operation : String → DotfError
  | userCancelled : DotfError
deriving DecidableEq, Repr

/-- Embeds the thiserror Display strings of DotfError, used when
restore_all_backups stringifies a per-path failure. -/
def errMessage : DotfError → String
  | .ioError m => "IO error: " ++ m
  | .config m => "Configuration error: " ++ m
  | .operation m => "Operation error: " ++ m
  | .userCancelled => "User cancelled operation"

/-- BackupFileType from backup.rs. -/
inductive BackupFileType where
  | file
  | directory
  | symlink (target : String)
deriving DecidableEq, Repr

/-- BackupEntry from backup.rs. -/
structure BackupEntry where
  original_path : String
  backup_path : String
  created_at : Timestamp
  file_type : BackupFileType
deriving DecidableEq, Repr

/-- BackupManifest from backup.rs.  The HashMap keyed by original path is
modelled as an association list with at most one binding per key; list
order stands for the (unspecified) HashMap iteration order. -/
structure BackupManifest where
  entries : List (String × BackupEntry)
deriving DecidableEq, Repr

/-- The bytes stored in a file: either plain text, or the serde_json
serialization of a backup manifest (modelled exactly, since that
serialization is lossless). -/
inductive FileContent where
  | text : String → FileContent
  | manifestData : BackupManifest → FileContent
deriving DecidableEq, Repr

/-- The in-memory filesystem-and-collaborator state the embedded core runs
against: plain-file contents, directories, symlink values (following
MockFileSystem), the queued Prompt select answers (following MockPrompt),
and the current UTC time read by backup_file. -/
structure St where
  files : List (String × FileContent)
  dirs : List String
  symlinks : List (String × String)
  prompts : List Nat
  now : Timestamp
deriving DecidableEq, Repr

/-- Insert-or-replace for the association lists standing for HashMap. -/
def mapInsert {α : Type} (m : List (String × α)) (k : String) (v : α) :
    List (String × α) :=
  (k, v) :: m.filter (fun e => !(e.1 == k))

/-- Key removal for the association lists standing for HashMap. -/
def mapErase {α : Type} (m : List (String × α)) (k : String) :
    List (String × α) :=
  m.filter (fun e => !(e.1 == k))

/-- Key lookup for the association lists standing for HashMap. -/
def mapLookup {α : Type} : List (String × α) → String → Option α
  | [], _ => none
  | (k, v) :: rest, q => if q = k then some v else mapLookup rest q

/-- FileSystem::exists, as modelled by MockFileSystem: an entity is present
as a plain file, a directory, or a symlink (regardless of link validity). -/
def fsExists (s : St) (p : String) : Bool :=
  (mapLookup s.files p).isSome || s.dirs.contains p || (mapLookup s.symlinks p).isSome

/-- FileSystem::is_symlink. -/
def fsIsSymlink (s : St) (p : String) : Bool :=
  (mapLookup s.symlinks p).isSome

/-- FileSystem::read_link: the link value, failing on a non-symlink. -/
def fsReadLink (s : St) (p : String) : Except DotfError String :=
  match mapLookup s.symlinks p with
  | some t => .ok t
  | none => .error (.ioError "Symlink not found")

/-- FileSystem::create_symlink: records target as a symlink to source. -/
def fsCreateSymlink (s : St) (source target : String) : St :=
  { s with symlinks := mapInsert s.symlinks target source }

/-- FileSystem::remove_file: removes a plain file or a symlink. -/
def fsRemoveFile (s : St) (p : String) : St :=
  { s with files := mapErase s.files p, symlinks := mapErase s.symlinks p }

/-- FileSystem::copy_file: copies the readable content of source to target,
resolving source through a symlink as fs::copy does; fails when source has
no readable content (as the production adapter does). -/
def fsCopyFile (s : St) (source target : String) :
    Except DotfError Unit × St :=
  match mapLookup s.files source with
  | some c => (.ok (), { s with files := mapInsert s.files target c })
  | none =>
    match mapLookup s.symlinks source with
    | some link =>
      match mapLookup s.files link with
      | some c => (.ok (), { s with files := mapInsert s.files target c })
      | none => (.error (.ioError "No such file or directory"), s)
    | none => (.error (.ioError "No such file or directory"), s)

/-- FileSystem::read_to_string: fails when no plain file is present. -/
def fsReadToString (s : St) (p : String) : Except DotfError FileContent :=
  match mapLookup s.files p with
  | some c => .ok c
  | none => .error (.ioError "File not found")

/-- FileSystem::write. -/
def fsWrite (s : St) (p : String) (c : FileContent) : St :=
  { s with files := mapInsert s.files p c }

/-- FileSystem::create_dir_all, as modelled by MockFileSystem: records the
directory path. -/
def fsCreateDirAll (s : St) (p : String) : St :=
  { s with dirs := s.dirs ++ [p] }

/-- Prompt::select, modelled as MockPrompt does: pop the next queued
answer, failing with a cancellation when the queue is exhausted. -/
def promptSelect (s : St) : Except DotfError Nat × St :=
  match s.prompts with
  | [] => (.error .userCancelled, s)
  | c :: rest => (.ok c, { s with prompts := rest })

/-- FileSystem::dotf_backup_path: the backup root directory (a fixed
home-derived path). -/
def dotfBackupPath : String := "/home/user/.dotf/backups"

/-- The manifest location used by load_manifest and save_manifest. -/
def manifestPath : String := dotfBackupPath ++ "/manifest.json"

/-- BackupManager::backup_file: build the timestamped backup filename from
the basename of the path, ensure the backup root exists, classify the file
type (symlink with its link value, otherwise plain file), copy the content
to the backup location, and return the entry without touching the
manifest. -/
def backupFile (s : St) (filePath : String) :
    Except DotfError BackupEntry × St :=
  let timestamp := s.now
  let backupFilename := basename filePath ++ "_" ++ formatTimestamp timestamp
  let backupPath := dotfBackupPath ++ "/" ++ backupFilename
  let s1 := fsCreateDirAll s dotfBackupPath
  let fileTypeRes : Except DotfError BackupFileType :=
    if fsIsSymlink s1 filePath then
      match fsReadLink s1 filePath with
      | .ok target => .ok (.symlink target)
      | .error e => .error e
    else .ok .file
  match fileTypeRes with
  | .error e => (.error e, s1)
  | .ok fileType =>
    match fsCopyFile s1 filePath backupPath with
    | (.error e, s2) => (.error e, s2)
    | (.ok _, s2) =>
      (.ok { original_path := filePath, backup_path := backupPath,
             created_at := timestamp, file_type := fileType }, s2)

/-- BackupManager::restore_from_backup: a file backup is copied back, a
symlink backup is recreated from its recorded link value, a directory
backup only recreates the directory. -/
def restoreFromBackup (s : St) (entry : BackupEntry) :
    Except DotfError Unit × St :=
  match entry.file_type with
  | .file => fsCopyFile s entry.backup_path entry.original_path
  | .symlink target => (.ok (), fsCreateSymlink s target entry.original_path)
  | .directory => (.ok (), fsCreateDirAll s entry.original_path)

/-- BackupManager::load_manifest: an absent manifest file is an empty
manifest, unparseable content is a configuration error.  The call only
reads, so no state is returned. -/
def loadManifest (s : St) : Except DotfError BackupManifest :=
  if fsExists s manifestPath then
    match fsReadToString s manifestPath with
    | .ok (.manifestData m) => .ok m
    | .ok (.text _) => .error (.config "Failed to parse backup manifest")
    | .error e => .error e
  else .ok { entries := [] }

/-- BackupManager::save_manifest: ensure the backup root exists and write
the serialized manifest. -/
def saveManifest (s : St) (m : BackupManifest) : St :=
  let s1 := fsCreateDirAll s dotfBackupPath
  fsWrite s1 manifestPath (.manifestData m)

/-- BackupManager::add_backup_entry: load, insert keyed by original path,
save. -/
def addBackupEntry (s : St) (entry : BackupEntry) :
    Except DotfError Unit × St :=
  match loadManifest s with
  | .error e => (.error e, s)
  | .ok m =>
    let m1 : BackupManifest :=
      { entries := mapInsert m.entries entry.original_path entry }
    (.ok (), saveManifest s m1)

/-- BackupManager::get_backup_entry.  The call only reads. -/
def getBackupEntry (s : St) (originalPath : String) :
    Except DotfError (Option BackupEntry) :=
  match loadManifest s with
  | .error e => .error e
  | .ok m => .ok (mapLookup m.entries originalPath)

/-- BackupManager::remove_backup_entry: drop the manifest entry if present,
delete its physical backup file, and save the manifest in either case. -/
def removeBackupEntry (s : St) (originalPath : String) :
    Except DotfError Unit × St :=
  match loadManifest s with
  | .error e => (.error e, s)
  | .ok m =>
    match mapLookup m.entries originalPath with
    | some entry =>
      let m1 : BackupManifest := { entries := mapErase m.entries originalPath }
      let s1 := fsRemoveFile s entry.backup_path
      (.ok (), saveManifest s1 m1)
    | none => (.ok (), saveManifest s m)

/-- RestoreError from backup.rs. -/
structure RestoreError where
  path : String
  error : String
deriving DecidableEq, Repr

/-- RestoreResult from backup.rs. -/
structure RestoreResult where
  restored_count : Nat
  failed_restorations : List RestoreError
deriving DecidableEq, Repr

/-- BackupManager::restore_specific_file_from_entry: remove any current
occupant of the original path, then restore from the backup. -/
def restoreSpecificFileFromEntry (s : St) (originalPath : String)
    (entry : BackupEntry) : Except DotfError Unit × St :=
  let s1 := if fsExists s originalPath then fsRemoveFile s originalPath else s
  restoreFromBackup s1 entry

/-- The iteration of restore_all_backups over the manifest entries:
count successes, stringify and collect per-path failures, keep going. -/
def restoreAllLoop : St → List (String × BackupEntry) →
    Nat × List RestoreError × St
  | s, [] => (0, [], s)
  | s, (originalPath, entry) :: rest =>
    match restoreSpecificFileFromEntry s originalPath entry with
    | (.ok _, s1) =>
      let r := restoreAllLoop s1 rest
      (r.1 + 1, r.2.1, r.2.2)
    | (.error e, s1) =>
      let r := restoreAllLoop s1 rest
      (r.1, { path := originalPath, error := errMessage e } :: r.2.1, r.2.2)

/-- BackupManager::restore_all_backups: iterate the whole manifest,
continuing past individual failures; clear the manifest only when every
restoration succeeded. -/
def restoreAllBackups (s : St) : Except DotfError RestoreResult × St :=
  match loadManifest s with
  | .error e => (.error e, s)
  | .ok m =>
    if m.entries.isEmpty then
      (.ok { restored_count := 0, failed_restorations := [] }, s)
    else
      let r := restoreAllLoop s m.entries
      let result : RestoreResult :=
        { restored_count := r.1, failed_restorations := r.2.1 }
      if result.failed_restorations.isEmpty then
        (.ok result, saveManifest r.2.2 { entries := [] })
      else
        (.ok result, r.2.2)

/-- ConflictResolution from conflict.rs. -/
inductive ConflictResolution where
  | skip
  | backup
  | overwrite
  | abort
deriving DecidableEq, Repr

/-- ConflictInfo from conflict.rs. -/
structure ConflictInfo where
  target_path : String
  source_path : String
  existing_is_symlink : Bool
  existing_target : Option String
deriving DecidableEq, Repr

/-- ConflictResolver::check_conflict: no conflict when the target is
absent or is already a symlink pointing exactly at the source; otherwise
capture the existing entity's metadata. -/
def checkConflict (s : St) (sourcePath targetPath : String) :
    Except DotfError (Option ConflictInfo) × St :=
  if !(fsExists s targetPath) then (.ok none, s)
  else
    let existingIsSymlink := fsIsSymlink s targetPath
    let existingTargetRes : Except DotfError (Option String) :=
      if existingIsSymlink then
        match fsReadLink s targetPath with
        | .ok t => .ok (some t)
        | .error e => .error e
      else .ok none
    match existingTargetRes with
    | .error e => (.error e, s)
    | .ok existingTarget =>
      if existingTarget == some sourcePath then (.ok none, s)
      else
        (.ok (some { target_path := targetPath, source_path := sourcePath,
                     existing_is_symlink := existingIsSymlink,
                     existing_target := existingTarget }), s)

/-- ConflictResolver::remove_existing (both branches of its conditional
call remove_file). -/
def removeExisting (s : St) (path : String) : St :=
  if fsIsSymlink s path then fsRemoveFile s path else fsRemoveFile s path

/-- ConflictResolver::resolve_conflict: Skip does nothing, Abort fails,
Overwrite deletes the occupant, Backup copies it aside, deletes it, and
persists the entry. -/
def resolveConflict (s : St) (conflict : ConflictInfo)
    (resolution : ConflictResolution) :
    Except DotfError (Option BackupEntry) × St :=
  match resolution with
  | .skip => (.ok none, s)
  | .abort => (.error (.operation "Operation aborted by user"), s)
  | .overwrite => (.ok none, removeExisting s conflict.target_path)
  | .backup =>
    match backupFile s conflict.target_path with
    | (.error e, s1) => (.error e, s1)
    | (.ok entry, s1) =>
      let s2 := removeExisting s1 conflict.target_path
      match addBackupEntry s2 entry with
      | (.error e, s3) => (.error e, s3)
      | (.ok _, s3) => (.ok (some entry), s3)

/-- ConflictResolver::resolve_conflict_interactive: ask the prompt for a
choice among Skip, Backup, Overwrite, Abort (any other index aborting) and
apply it. -/
def resolveConflictInteractive (s : St) (conflict : ConflictInfo) :
    Except DotfError (Option BackupEntry) × St :=
  match promptSelect s with
  | (.error e, s1) => (.error e, s1)
  | (.ok choice, s1) =>
    let resolution :=
      match choice with
      | 0 => ConflictResolution.skip
      | 1 => ConflictResolution.backup
      | 2 => ConflictResolution.overwrite
      | _ => ConflictResolution.abort
    resolveConflict s1 conflict resolution

/-- The per-conflict loop of the Individual branch of
resolve_all_conflicts_interactive. -/
def resolveIndividualLoop : St → List ConflictInfo →
    Except DotfError (List BackupEntry) × St
  | s, [] => (.ok [], s)
  | s, c :: rest =>
    match resolveConflictInteractive s c with
    | (.error e, s1) => (.error e, s1)
    | (.ok entryOpt, s1) =>
      match resolveIndividualLoop s1 rest with
      | (.error e, s2) => (.error e, s2)
      | (.ok entries, s2) =>
        match entryOpt with
        | some entry => (.ok (entry :: entries), s2)
        | none => (.ok entries, s2)

/-- The per-conflict loop of the Backup All branch of
resolve_all_conflicts_interactive. -/
def resolveBackupAllLoop : St → List ConflictInfo →
    Except DotfError (List BackupEntry) × St
  | s, [] => (.ok [], s)
  | s, c :: rest =>
    match resolveConflict s c .backup with
    | (.error e, s1) => (.error e, s1)
    | (.ok entryOpt, s1) =>
      match resolveBackupAllLoop s1 rest with
      | (.error e, s2) => (.error e, s2)
      | (.ok entries, s2) =>
        match entryOpt with
        | some entry => (.ok (entry :: entries), s2)
        | none => (.ok entries, s2)

/-- The per-conflict loop of the Overwrite All branch of
resolve_all_conflicts_interactive. -/
def resolveOverwriteAllLoop : St → List ConflictInfo →
    Except DotfError Unit × St
  | s, [] => (.ok (), s)
  | s, c :: rest =>
    match resolveConflict s c .overwrite with
    | (.error e, s1) => (.error e, s1)
    | (.ok _, s1) => resolveOverwriteAllLoop s1 rest

/-- ConflictResolver::resolve_all_conflicts_interactive: for a non-empty
conflict list, ask once for a batch policy (Individual, Skip All,
Backup All, Overwrite All, anything else aborting) and apply it over the
ordered conflicts. -/
def resolveAllConflictsInteractive (s : St) (conflicts : List ConflictInfo) :
    Except DotfError (List BackupEntry) × St :=
  if conflicts.isEmpty then (.ok [], s)
  else
    match promptSelect s with
    | (.error e, s1) => (.error e, s1)
    | (.ok choice, s1) =>
      match choice with
      | 0 => resolveIndividualLoop s1 conflicts
      | 1 => (.ok [], s1)
      | 2 => resolveBackupAllLoop s1 conflicts
      | 3 =>
        match resolveOverwriteAllLoop s1 conflicts with
        | (.error e, s2) => (.error e, s2)
        | (.ok _, s2) => (.ok [], s2)
      | _ => (.error (.operation "Operation aborted by user"), s1)

/-- SymlinkStatus from manager.rs. -/
inductive SymlinkStatus where
  | valid
  | missing
  | broken
  | conflict
  | invalidTarget
  | modified
deriving DecidableEq, Repr

/-- SymlinkInfo from manager.rs. -/
structure SymlinkInfo where
  source_path : String
  target_path : String
  status : SymlinkStatus
  current_target : Option String
deriving DecidableEq, Repr

/-- SymlinkOperation from manager.rs: one declared source to target
mapping. -/
structure SymlinkOperation where
  source_path : String
  target_path : String
deriving DecidableEq, Repr

/-- SymlinkManager::get_single_symlink_status: the classification ladder of
section 4.1 (absent target, non-symlink occupant, dangling declared source,
matching link value, mismatched link value). -/
def getSingleSymlinkStatus (s : St) (operation : SymlinkOperation) :
    Except DotfError SymlinkInfo × St :=
  if !(fsExists s operation.target_path) then
    (.ok { source_path := operation.source_path,
           target_path := operation.target_path,
           status := .missing, current_target := none }, s)
  else if !(fsIsSymlink s operation.target_path) then
    (.ok { source_path := operation.source_path,
           target_path := operation.target_path,
           status := .conflict, current_target := none }, s)
  else
    match fsReadLink s operation.target_path with
    | .error e => (.error e, s)
    | .ok currentTarget =>
      if !(fsExists s operation.source_path) then
        (.ok { source_path := operation.source_path,
               target_path := operation.target_path,
               status := .broken, current_target := some currentTarget }, s)
      else if currentTarget == operation.source_path then
        (.ok { source_path := operation.source_path,
               target_path := operation.target_path,
               status := .valid, current_target := some currentTarget }, s)
      else
        (.ok { source_path := operation.source_path,
               target_path := operation.target_path,
               status := .invalidTarget,
               current_target := some currentTarget }, s)

/-- SymlinkManager::check_conflicts: collect the conflicts of the batch,
in declaration order. -/
def checkConflicts : St → List SymlinkOperation →
    Except DotfError (List ConflictInfo) × St
  | s, [] => (.ok [], s)
  | s, op :: rest =>
    match checkConflict s op.source_path op.target_path with
    | (.error e, s1) => (.error e, s1)
    | (.ok conflictOpt, s1) =>
      match checkConflicts s1 rest with
      | (.error e, s2) => (.error e, s2)
      | (.ok conflicts, s2) =>
        match conflictOpt with
        | some c => (.ok (c :: conflicts), s2)
        | none => (.ok conflicts, s2)

/-- The creation loop of create_symlinks, after batch conflict handling:
an operation whose target path appears in the conflict list and no longer
exists is skipped; otherwise the symlink is created (with its parent
directory) exactly when the target does not exist.  All operations used
are infallible in the filesystem model, so only the state is returned. -/
def createSymlinksLoop : St → List ConflictInfo → List SymlinkOperation → St
  | s, _, [] => s
  | s, conflicts, op :: rest =>
    if conflicts.any (fun c => c.target_path == op.target_path)
        && !(fsExists s op.target_path) then
      createSymlinksLoop s conflicts rest
    else
      if !(fsExists s op.target_path) then
        let s1 :=
          match parentDir op.target_path with
          | some parent => fsCreateDirAll s parent
          | none => s
        createSymlinksLoop (fsCreateSymlink s1 op.source_path op.target_path)
          conflicts rest
      else
        createSymlinksLoop s conflicts rest

/-- SymlinkManager::create_symlinks: compute the batch's conflicts first;
with conflicts, resolve them interactively or fail with a conflict-count
error in non-interactive mode; then run the creation loop. -/
def createSymlinks (s : St) (operations : List SymlinkOperation)
    (interactive : Bool) : Except DotfError (List BackupEntry) × St :=
  match checkConflicts s operations with
  | (.error e, s1) => (.error e, s1)
  | (.ok conflicts, s1) =>
    let resolved : Except DotfError (List BackupEntry) × St :=
      if conflicts.isEmpty then (.ok [], s1)
      else if interactive then resolveAllConflictsInteractive s1 conflicts
      else
        (.error (.operation ("Found " ++ toString conflicts.length ++
          " conflict(s) but running in non-interactive mode")), s1)
    match resolved with
    | (.error e, s2) => (.error e, s2)
    | (.ok backupEntries, s2) =>
      (.ok backupEntries, createSymlinksLoop s2 conflicts operations)

/-- SymlinkManager::remove_symlinks: per declaration, classify and then
remove the target (Valid, Broken, InvalidTarget, Modified), do nothing
(Missing), or fail (Conflict). -/
def removeSymlinks : St → List SymlinkOperation → Except DotfError Unit × St
  | s, [] => (.ok (), s)
  | s, op :: rest =>
    match getSingleSymlinkStatus s op with
    | (.error e, s1) => (.error e, s1)
    | (.ok info, s1) =>
      match info.status with
      | .valid | .broken | .invalidTarget | .modified =>
        removeSymlinks (fsRemoveFile s1 op.target_path) rest
      | .missing => removeSymlinks s1 rest
      | .conflict =>
        (.error (.operation ("Cannot remove \x27" ++ op.target_path ++
          "\x27: not a symlink")), s1)

/-- The relative-source computation of get_symlink_status_with_changes:
strip the repository root from an absolute source path and trim the
leading slashes. -/
def relativeSource (repoPath sourcePath : String) : String :=
  if sourcePath.startsWith repoPath then
    String.mk ((sourcePath.drop repoPath.length).toList.dropWhile
      (fun ch => ch == '/'))
  else sourcePath

/-- SymlinkManager::get_symlink_status_with_changes: classify each
declaration; for a Valid one, consult the Repository collaborator
(is_file_modified, modelled as a function of the repository path and the
relative source) and upgrade to Modified on a positive answer, keeping the
prior status on a negative answer or a collaborator failure. -/
def getSymlinkStatusWithChanges (repo : String → String → Except DotfError Bool)
    (repoPath : String) : St → List SymlinkOperation →
    Except DotfError (List SymlinkInfo) × St
  | s, [] => (.ok [], s)
  | s, op :: rest =>
    match getSingleSymlinkStatus s op with
    | (.error e, s1) => (.error e, s1)
    | (.ok info, s1) =>
      let info1 :=
        if info.status == SymlinkStatus.valid then
          match repo repoPath (relativeSource repoPath op.source_path) with
          | .ok true => { info with status := SymlinkStatus.modified }
          | .ok false => info
          | .error _ => info
        else info
      match getSymlinkStatusWithChanges repo repoPath s1 rest with
      | (.error e, s2) => (.error e, s2)
      | (.ok infos, s2) => (.ok (info1 :: infos), s2)

/-! Concrete fixtures used by the claim and witness theorems. -/

/-- A fixed timestamp for the concrete scenarios. -/
def ts0 : Timestamp :=
  { year := 2024, month := 1, day := 2, hour := 3, minute := 4, second := 5 }

/-- A state whose single file occupies the declared target (a conflict),
with one queued prompt answer selecting the Backup All policy. -/
def sC1 : St :=
  { files := [("/home/u/.vimrc", .text "legacy")], dirs := [], symlinks := [],
    prompts := [2], now := ts0 }

/-- The declaration whose target is occupied in sC1. -/
def opC1 : SymlinkOperation :=
  { source_path := "/repo/.vimrc", target_path := "/home/u/.vimrc" }

/-- A state whose single file occupies the declared target (a conflict),
with no queued prompt answers. -/
def sC2 : St :=
  { files := [("/home/u/.bashrc", .text "old")], dirs := [], symlinks := [],
    prompts := [], now := ts0 }

/-- The declaration whose target is occupied in sC2. -/
def opC2 : SymlinkOperation :=
  { source_path := "/repo/.bashrc", target_path := "/home/u/.bashrc" }

/-- The backup entry produced when the conflict of sC1 is resolved with
the Backup policy. -/
def entryC1 : BackupEntry :=
  { original_path := "/home/u/.vimrc",
    backup_path := "/home/user/.dotf/backups/.vimrc_20240102_030405",
    created_at := ts0, file_type := .file }

/-- A state whose declared target is a symlink to a readable file. -/
def sC7s : St :=
  { files := [("/old/src", .text "x")], dirs := [],
    symlinks := [("/home/u/.zshrc", "/old/src")], prompts := [], now := ts0 }

/-- The declaration matching the valid symlink of sC7s. -/
def opC9 : SymlinkOperation :=
  { source_path := "/old/src", target_path := "/home/u/.zshrc" }

/-- A Repository collaborator that always reports the file as modified. -/
def repoAlways : String → String → Except DotfError Bool :=
  fun _ _ => .ok true

/-- A backup entry whose backup file is present in sC5. -/
def entryC5a : BackupEntry :=
  { original_path := "/home/u/a",
    backup_path := "/home/user/.dotf/backups/a_1",
    created_at := ts0, file_type := .file }

/-- A backup entry whose backup file is absent in sC5. -/
def entryC5b : BackupEntry :=
  { original_path := "/home/u/b",
    backup_path := "/home/user/.dotf/backups/b_1",
    created_at := ts0, file_type := .file }

/-- A state with a two-entry manifest where only the first entry's backup
file exists on disk. -/
def sC5 : St :=
  { files := [("/home/user/.dotf/backups/manifest.json",
      .manifestData { entries :=
        [("/home/u/a", entryC5a), ("/home/u/b", entryC5b)] }),
      ("/home/user/.dotf/backups/a_1", .text "A")],
    dirs := [], symlinks := [], prompts := [], now := ts0 }

/-! Basic lemmas about the association-list operations. -/

theorem mapLookup_filterNe {α : Type} (m : List (String × α)) (k q : String)
    (h : q ≠ k) :
    mapLookup (m.filter (fun e => !(e.1 == k))) q = mapLookup m q := by
  induction m with
  | nil => rfl
  | cons e rest ih =>
    obtain ⟨a, b⟩ := e
    by_cases hak : a = k
    · subst hak
      simp only [List.filter_cons]
      simp [mapLookup, h, ih]
    · simp only [List.filter_cons]
      simp only [show ((a, b).1 == k) = false by simpa using hak]
      by_cases hqa : q = a
      · simp [mapLookup, hqa]
      · simp [mapLookup, hqa, ih]

theorem mapLookup_mapInsert {α : Type} (m : List (String × α)) (k q : String)
    (v : α) :
    mapLookup (mapInsert m k v) q = if q = k then some v else mapLookup m q := by
  by_cases h : q = k
  · simp [mapInsert, mapLookup, h]
  · simp [mapInsert, mapLookup, h, mapLookup_filterNe m k q h]

theorem beq_eq_decide (q a : String) : (q == a) = decide (q = a) := by
  by_cases h : q = a <;> simp [h]

theorem mapLookup_mapErase_self {α : Type} (m : List (String × α)) (q : String) :
    mapLookup (mapErase m q) q = none := by
  induction m with
  | nil => rfl
  | cons e rest ih =>
    obtain ⟨a, b⟩ := e
    by_cases hak : a = q
    · simpa [mapErase, List.filter_cons, hak] using ih
    · have hf : ((a, b).1 == q) = false := by simpa using hak
      have hqa : ¬(q = a) := fun h => hak h.symm
      simpa [mapErase, List.filter_cons, hf, mapLookup, hqa] using ih

theorem mapLookup_mapErase {α : Type} (m : List (String × α)) (k q : String) :
    mapLookup (mapErase m k) q = if q = k then none else mapLookup m q := by
  by_cases h : q = k
  · subst h
    simp [mapLookup_mapErase_self]
  · simp [mapErase, h, mapLookup_filterNe m k q h]

theorem contains_snoc (l : List String) (a q : String) :
    (l ++ [a]).contains q = (l.contains q || (q == a)) := by
  induction l with
  | nil => simp [beq_eq_decide]
  | cons x rest ih => simp [List.contains_cons, ih, beq_eq_decide, Bool.or_assoc]

/-! Characterization lemmas for the status classifier and the conflict
checker. -/

theorem fsExists_of_symlink (s : St) (p cur : String)
    (h : mapLookup s.symlinks p = some cur) : fsExists s p = true := by
  simp [fsExists, h]

theorem getSingleSymlinkStatus_missing (s : St) (op : SymlinkOperation)
    (h : fsExists s op.target_path = false) :
    getSingleSymlinkStatus s op =
      (.ok { source_path := op.source_path, target_path := op.target_path,
             status := .missing, current_target := none }, s) := by
  simp [getSingleSymlinkStatus, h]

theorem getSingleSymlinkStatus_conflict (s : St) (op : SymlinkOperation)
    (h1 : fsExists s op.target_path = true)
    (h2 : mapLookup s.symlinks op.target_path = none) :
    getSingleSymlinkStatus s op =
      (.ok { source_path := op.source_path, target_path := op.target_path,
             status := .conflict, current_target := none }, s) := by
  simp [getSingleSymlinkStatus, h1, fsIsSymlink, h2]

theorem getSingleSymlinkStatus_link (s : St) (op : SymlinkOperation)
    (cur : String) (h : mapLookup s.symlinks op.target_path = some cur) :
    getSingleSymlinkStatus s op =
      (.ok { source_path := op.source_path, target_path := op.target_path,
             status :=
               if fsExists s op.source_path = false then .broken
               else if cur == op.source_path then .valid
               else .invalidTarget,
             current_target := some cur }, s) := by
  have hex := fsExists_of_symlink s op.target_path cur h
  have hsym : fsIsSymlink s op.target_path = true := by simp [fsIsSymlink, h]
  by_cases hsrc : fsExists s op.source_path = true
  · by_cases hcur : (cur == op.source_path) = true
    · simp [getSingleSymlinkStatus, hex, hsym, fsReadLink, h, hsrc, hcur]
    · simp [getSingleSymlinkStatus, hex, hsym, fsReadLink, h, hsrc,
        Bool.eq_false_iff.mpr hcur]
  · have hsrc' : fsExists s op.source_path = false := by simpa using hsrc
    simp [getSingleSymlinkStatus, hex, hsym, fsReadLink, h, hsrc']

theorem checkConflict_eq (s : St) (source target : String) :
    checkConflict s source target =
      (.ok (if fsExists s target = false then none
            else if mapLookup s.symlinks target = some source then none
            else some { target_path := target, source_path := source,
                        existing_is_symlink := fsIsSymlink s target,
                        existing_target := mapLookup s.symlinks target }), s) := by
  by_cases hE : fsExists s target = true
  · rcases hL : mapLookup s.symlinks target with _ | cur
    · simp [checkConflict, hE, fsIsSymlink, hL]
    · by_cases hc : cur = source
      · simp [checkConflict, hE, fsIsSymlink, fsReadLink, hL, hc]
      · simp [checkConflict, hE, fsIsSymlink, fsReadLink, hL, hc]
  · have hE' : fsExists s target = false := by simpa using hE
    simp [checkConflict, hE']

theorem checkConflicts_ok (s : St) (ops : List SymlinkOperation) :
    ∃ cs, checkConflicts s ops = (.ok cs, s) := by
  induction ops with
  | nil => exact ⟨[], rfl⟩
  | cons op rest ih =>
    obtain ⟨cs, hcs⟩ := ih
    rcases hr : (if fsExists s op.target_path = false then none
        else if mapLookup s.symlinks op.target_path = some op.source_path
        then none
        else some { target_path := op.target_path,
                    source_path := op.source_path,
                    existing_is_symlink := fsIsSymlink s op.target_path,
                    existing_target := mapLookup s.symlinks op.target_path,
                    : ConflictInfo }) with _ | c
    · exact ⟨cs, by simp [checkConflicts, checkConflict_eq, hr, hcs]⟩
    · exact ⟨c :: cs, by simp [checkConflicts, checkConflict_eq, hr, hcs]⟩

/-- Claim C3: for every declaration and filesystem state, the status
classifier returns Missing when the target is absent; Conflict when the
target exists and is not a symlink; Broken when the target is a symlink
but the declared source is absent; Valid when the symlink value equals the
declared source; InvalidTarget when it differs; and the classification
performs no filesystem mutation. -/
theorem c3_status_classification (s : St) (op : SymlinkOperation) :
    (getSingleSymlinkStatus s op).2 = s ∧
    ∃ info, (getSingleSymlinkStatus s op).1 = .ok info ∧
      (info.status = SymlinkStatus.missing ↔
        fsExists s op.target_path = false) ∧
      (info.status = SymlinkStatus.conflict ↔
        fsExists s op.target_path = true ∧
        fsIsSymlink s op.target_path = false) ∧
      (info.status = SymlinkStatus.broken ↔
        fsIsSymlink s op.target_path = true ∧
        fsExists s op.source_path = false) ∧
      (info.status = SymlinkStatus.valid ↔
        fsExists s op.source_path = true ∧
        mapLookup s.symlinks op.target_path = some op.source_path) ∧
      (info.status = SymlinkStatus.invalidTarget ↔
        fsExists s op.source_path = true ∧
        ∃ cur, mapLookup s.symlinks op.target_path = some cur ∧
          cur ≠ op.source_path) := by
  rcases hL : mapLookup s.symlinks op.target_path with _ | cur
  · by_cases hE : fsExists s op.target_path = true
    · rw [getSingleSymlinkStatus_conflict s op hE hL]
      refine ⟨rfl, _, rfl, ?_, ?_, ?_, ?_, ?_⟩ <;> simp [hE, hL, fsIsSymlink]
    · have hE' : fsExists s op.target_path = false := by simpa using hE
      rw [getSingleSymlinkStatus_missing s op hE']
      refine ⟨rfl, _, rfl, ?_, ?_, ?_, ?_, ?_⟩ <;> simp [hE', hL, fsIsSymlink]
  · rw [getSingleSymlinkStatus_link s op cur hL]
    have hsym : fsIsSymlink s op.target_path = true := by simp [fsIsSymlink, hL]
    have hex := fsExists_of_symlink s op.target_path cur hL
    by_cases hsrc : fsExists s op.source_path = true
    · by_cases hcur : cur = op.source_path
      · refine ⟨rfl, _, rfl, ?_, ?_, ?_, ?_, ?_⟩ <;>
          simp [hex, hsym, hsrc, hL, hcur]
      · refine ⟨rfl, _, rfl, ?_, ?_, ?_, ?_, ?_⟩ <;>
          simp [hex, hsym, hsrc, hL, hcur, Ne.symm]
    · have hsrc' : fsExists s op.source_path = false := by simpa using hsrc
      refine ⟨rfl, _, rfl, ?_, ?_, ?_, ?_, ?_⟩ <;>
        simp [hex, hsym, hsrc', hL]

/-- Claim C3 witness: the classifier leaves the concrete conflicted state
untouched and classifies its occupied target as Conflict. -/
theorem c3_status_classification_witness :
    (getSingleSymlinkStatus sC2 opC2).2 = sC2 := by
  exact (c3_status_classification sC2 opC2).1

/-- Claim C6: check_conflict returns None exactly when the target is
absent or is already a symlink whose value equals the source; otherwise it
returns metadata recording whether the occupant is a symlink and, if so,
its current link value; and the check performs no mutation. -/
theorem c6_check_conflict_none_iff (s : St) (source target : String) :
    (checkConflict s source target).2 = s ∧
    ∃ r, (checkConflict s source target).1 = .ok r ∧
      (r = none ↔ (fsExists s target = false ∨
        mapLookup s.symlinks target = some source)) ∧
      (∀ info, r = some info →
        info.target_path = target ∧ info.source_path = source ∧
        info.existing_is_symlink = fsIsSymlink s target ∧
        info.existing_target = mapLookup s.symlinks target) := by
  rw [checkConflict_eq]
  refine ⟨rfl, _, rfl, ?_, ?_⟩
  · by_cases hE : fsExists s target = false
    · simp [hE]
    · by_cases hL : mapLookup s.symlinks target = some source
      · simp [hE, hL]
      · simp [hE, hL]
  · intro info hinfo
    by_cases hE : fsExists s target = false
    · simp [hE] at hinfo
    · by_cases hL : mapLookup s.symlinks target = some source
      · simp [hE, hL] at hinfo
      · simp [hE, hL] at hinfo
        subst hinfo
        exact ⟨rfl, rfl, rfl, rfl⟩

/-- Claim C6 witness: on the concrete conflicted state, the checker leaves
the state untouched. -/
theorem c6_check_conflict_none_iff_witness :
    (checkConflict sC2 "/repo/.bashrc" "/home/u/.bashrc").2 = sC2 := by
  exact (c6_check_conflict_none_iff sC2 "/repo/.bashrc" "/home/u/.bashrc").1

/-- Claim C2: with at least one conflict in the batch, create_symlinks in
non-interactive mode returns an error naming the conflict count and the
state after the call is exactly the state before it. -/
theorem c2_non_interactive_zero_mutation (s : St)
    (ops : List SymlinkOperation) (cs : List ConflictInfo)
    (h1 : (checkConflicts s ops).1 = .ok cs) (h2 : cs ≠ []) :
    createSymlinks s ops false =
      (.error (.operation ("Found " ++ toString cs.length ++
        " conflict(s) but running in non-interactive mode")), s) := by
  obtain ⟨cs2, hcs2⟩ := checkConflicts_ok s ops
  rw [hcs2] at h1
  replace h1 : cs2 = cs := by simpa using h1
  subst h1
  have hne : cs2.isEmpty = false := by
    cases cs2 with
    | nil => exact absurd rfl h2
    | cons a l => rfl
  unfold createSymlinks
  rw [hcs2]
  simp [hne]

/-- Claim C2 witness: on the concrete conflicted state, the non-interactive
call errors with the count of one conflict and returns the state
unchanged. -/
theorem c2_non_interactive_zero_mutation_witness :
    createSymlinks sC2 [opC2] false =
      (.error (.operation ("Found " ++ toString (1 : Nat) ++
        " conflict(s) but running in non-interactive mode")), sC2) :=
  c2_non_interactive_zero_mutation sC2 [opC2]
    [{ target_path := "/home/u/.bashrc", source_path := "/repo/.bashrc",
       existing_is_symlink := false, existing_target := none }]
    rfl (List.cons_ne_nil _ _)

/-- Claim C10: removing a backup entry for a path with no manifest entry
succeeds, deletes no file or symlink, and leaves the set of manifest
entries unchanged (the manifest is merely re-saved and the backup root
re-created). -/
theorem c10_remove_backup_entry_absent (s : St) (p : String)
    (m : BackupManifest) (h1 : loadManifest s = .ok m)
    (h2 : mapLookup m.entries p = none) :
    ∃ s', removeBackupEntry s p = (.ok (), s') ∧
      loadManifest s' = .ok m ∧
      s'.symlinks = s.symlinks ∧
      s'.dirs = s.dirs ++ [dotfBackupPath] ∧
      s'.prompts = s.prompts ∧
      (∀ q, q ≠ manifestPath → mapLookup s'.files q = mapLookup s.files q) ∧
      mapLookup s'.files manifestPath = some (.manifestData m) := by
  refine ⟨saveManifest s m, ?_, ?_, rfl, rfl, rfl, ?_, ?_⟩
  · simp [removeBackupEntry, h1, h2]
  · simp [loadManifest, saveManifest, fsWrite, fsCreateDirAll, fsExists,
      fsReadToString, mapLookup_mapInsert]
  · intro q hq
    simp [saveManifest, fsWrite, fsCreateDirAll, mapLookup_mapInsert, hq]
  · simp [saveManifest, fsWrite, fsCreateDirAll, mapLookup_mapInsert]

/-- Claim C10 witness: removing an untracked path from the concrete state
succeeds and the manifest stays empty. -/
theorem c10_remove_backup_entry_absent_witness :
    ∃ s', removeBackupEntry sC2 "/nope" = (.ok (), s') ∧
      loadManifest s' = .ok { entries := [] } := by
  obtain ⟨s', ha, hb, -⟩ :=
    c10_remove_backup_entry_absent sC2 "/nope" { entries := [] } rfl rfl
  exact ⟨s', ha, hb⟩

/-- Claim C1 (contradicted by the code): in the concrete interactive run,
the batch has exactly one conflict, the Backup All policy resolves it (the
legacy content is copied to the backup location and a backup entry is
returned), so the target is clear, yet the call ends with nothing at the
target: no symlink to the declared source is ever created, because the
creation loop skips precisely the operations whose conflict was cleared.
The claim and the code's own comments say the symlink must be created. -/
theorem c1_backup_resolution_blocks_creation :
    (checkConflicts sC1 [opC1]).1 =
      .ok [{ target_path := "/home/u/.vimrc", source_path := "/repo/.vimrc",
             existing_is_symlink := false, existing_target := none }] ∧
    (createSymlinks sC1 [opC1] true).1 = .ok [entryC1] ∧
    mapLookup (createSymlinks sC1 [opC1] true).2.files
        "/home/user/.dotf/backups/.vimrc_20240102_030405" =
      some (.text "legacy") ∧
    fsExists (createSymlinks sC1 [opC1] true).2 "/home/u/.vimrc" = false ∧
    mapLookup (createSymlinks sC1 [opC1] true).2.symlinks "/home/u/.vimrc" =
      none := by
  refine ⟨?_, ?_, ?_, ?_, ?_⟩ <;> rfl

/-! Helper equations for backup_file and the manifest operations. -/

theorem removeExisting_eq (s : St) (p : String) :
    removeExisting s p = fsRemoveFile s p := by
  simp [removeExisting]

theorem backupFile_file (s : St) (p : String) (c : FileContent)
    (hf : mapLookup s.files p = some c)
    (hs : mapLookup s.symlinks p = none) :
    backupFile s p =
      (.ok { original_path := p,
             backup_path := dotfBackupPath ++ "/" ++
               (basename p ++ "_" ++ formatTimestamp s.now),
             created_at := s.now, file_type := .file },
       { s with dirs := s.dirs ++ [dotfBackupPath],
                files := mapInsert s.files
                  (dotfBackupPath ++ "/" ++
                    (basename p ++ "_" ++ formatTimestamp s.now)) c }) := by
  simp [backupFile, fsCreateDirAll, fsIsSymlink, hs, fsCopyFile, hf]

theorem backupFile_symlink (s : St) (p v : String) (cv : FileContent)
    (hs : mapLookup s.symlinks p = some v)
    (hf : mapLookup s.files p = none)
    (hv : mapLookup s.files v = some cv) :
    backupFile s p =
      (.ok { original_path := p,
             backup_path := dotfBackupPath ++ "/" ++
               (basename p ++ "_" ++ formatTimestamp s.now),
             created_at := s.now, file_type := .symlink v },
       { s with dirs := s.dirs ++ [dotfBackupPath],
                files := mapInsert s.files
                  (dotfBackupPath ++ "/" ++
                    (basename p ++ "_" ++ formatTimestamp s.now)) cv }) := by
  simp [backupFile, fsCreateDirAll, fsIsSymlink, hs, fsReadLink, fsCopyFile,
    hf, hv]

theorem loadManifest_congr (s s' : St)
    (hf : mapLookup s'.files manifestPath = mapLookup s.files manifestPath)
    (hd : manifestPath ∈ s'.dirs ↔ manifestPath ∈ s.dirs)
    (hs : mapLookup s'.symlinks manifestPath =
      mapLookup s.symlinks manifestPath) :
    loadManifest s' = loadManifest s := by
  simp [loadManifest, fsExists, fsReadToString, hf, hd, hs]

theorem loadManifest_saveManifest (s : St) (m : BackupManifest) :
    loadManifest (saveManifest s m) = .ok m := by
  simp [loadManifest, saveManifest, fsWrite, fsCreateDirAll, fsExists,
    fsReadToString, mapLookup_mapInsert]

theorem manifestPath_ne_backupRoot : manifestPath ≠ dotfBackupPath := by
  decide

theorem addBackupEntry_eq (s : St) (entry : BackupEntry) (m : BackupManifest)
    (h : loadManifest s = .ok m) :
    addBackupEntry s entry =
      (.ok (), saveManifest s
        { entries := mapInsert m.entries entry.original_path entry }) := by
  simp [addBackupEntry, h]

/-- Claim C7: backup_file returns an entry whose backup filename is the
basename followed by an underscore and the second-precision UTC timestamp,
whose file type is Symlink with the current link value when the path is a
symlink and File otherwise (never Directory), copying the readable content
to the backup location and adding nothing to the manifest. -/
theorem c7_backup_file_spec :
    (∀ (s : St) (p : String) (c : FileContent),
      mapLookup s.files p = some c →
      mapLookup s.symlinks p = none →
      dotfBackupPath ++ "/" ++ (basename p ++ "_" ++ formatTimestamp s.now) ≠
        manifestPath →
      ∃ entry s1,
        backupFile s p = (.ok entry, s1) ∧
        entry.original_path = p ∧
        entry.backup_path = dotfBackupPath ++ "/" ++
          (basename p ++ "_" ++ formatTimestamp s.now) ∧
        entry.created_at = s.now ∧
        entry.file_type = .file ∧
        mapLookup s1.files entry.backup_path = some c ∧
        loadManifest s1 = loadManifest s) ∧
    (∀ (s : St) (p v : String) (cv : FileContent),
      mapLookup s.symlinks p = some v →
      mapLookup s.files p = none →
      mapLookup s.files v = some cv →
      dotfBackupPath ++ "/" ++ (basename p ++ "_" ++ formatTimestamp s.now) ≠
        manifestPath →
      ∃ entry s1,
        backupFile s p = (.ok entry, s1) ∧
        entry.original_path = p ∧
        entry.backup_path = dotfBackupPath ++ "/" ++
          (basename p ++ "_" ++ formatTimestamp s.now) ∧
        entry.created_at = s.now ∧
        entry.file_type = .symlink v ∧
        mapLookup s1.files entry.backup_path = some cv ∧
        loadManifest s1 = loadManifest s) := by
  constructor
  · intro s p c hf hs hname
    have hmp : manifestPath ≠
        dotfBackupPath ++ "/" ++ (basename p ++ "_" ++ formatTimestamp s.now) :=
      Ne.symm hname
    refine ⟨_, _, backupFile_file s p c hf hs, rfl, rfl, rfl, rfl, ?_, ?_⟩
    · simp [mapLookup_mapInsert]
    · apply loadManifest_congr
      · simp [mapLookup_mapInsert, hmp]
      · simp [List.mem_append, manifestPath_ne_backupRoot]
      · rfl
  · intro s p v cv hs hf hv hname
    have hmp : manifestPath ≠
        dotfBackupPath ++ "/" ++ (basename p ++ "_" ++ formatTimestamp s.now) :=
      Ne.symm hname
    refine ⟨_, _, backupFile_symlink s p v cv hs hf hv, rfl, rfl, rfl, rfl,
      ?_, ?_⟩
    · simp [mapLookup_mapInsert]
    · apply loadManifest_congr
      · simp [mapLookup_mapInsert, hmp]
      · simp [List.mem_append, manifestPath_ne_backupRoot]
      · rfl

/-- The state left by the backup-and-remove steps of a Backup resolution
still loads the same manifest, when neither the target nor the backup
location is the manifest file. -/
theorem loadManifest_backup_step (s : St) (t bp : String) (c : FileContent)
    (ht : t ≠ manifestPath) (hbp : bp ≠ manifestPath) :
    loadManifest { files := mapErase (mapInsert s.files bp c) t,
                   dirs := s.dirs ++ [dotfBackupPath],
                   symlinks := mapErase s.symlinks t,
                   prompts := s.prompts, now := s.now } = loadManifest s := by
  apply loadManifest_congr
  · simp [mapLookup_mapErase, mapLookup_mapInsert, Ne.symm ht, Ne.symm hbp]
  · simp [List.mem_append, manifestPath_ne_backupRoot]
  · simp [mapLookup_mapErase, Ne.symm ht]

/-- Claim C4: resolving a conflict with Backup and then restoring from the
produced entry puts the original content back at the original path: the
original byte content for a plain file, a symlink with the original link
value for a symlink. -/
theorem c4_backup_restore_round_trip :
    (∀ (s : St) (conflict : ConflictInfo) (c : FileContent)
        (m0 : BackupManifest),
      mapLookup s.files conflict.target_path = some c →
      mapLookup s.symlinks conflict.target_path = none →
      loadManifest s = .ok m0 →
      conflict.target_path ≠ manifestPath →
      dotfBackupPath ++ "/" ++ (basename conflict.target_path ++ "_" ++
        formatTimestamp s.now) ≠ manifestPath →
      dotfBackupPath ++ "/" ++ (basename conflict.target_path ++ "_" ++
        formatTimestamp s.now) ≠ conflict.target_path →
      ∃ entry,
        (resolveConflict s conflict .backup).1 = .ok (some entry) ∧
        (restoreFromBackup (resolveConflict s conflict .backup).2 entry).1 =
          .ok () ∧
        mapLookup (restoreFromBackup (resolveConflict s conflict .backup).2
          entry).2.files conflict.target_path = some c ∧
        mapLookup (restoreFromBackup (resolveConflict s conflict .backup).2
          entry).2.symlinks conflict.target_path = none) ∧
    (∀ (s : St) (conflict : ConflictInfo) (v : String) (cv : FileContent)
        (m0 : BackupManifest),
      mapLookup s.symlinks conflict.target_path = some v →
      mapLookup s.files conflict.target_path = none →
      mapLookup s.files v = some cv →
      loadManifest s = .ok m0 →
      conflict.target_path ≠ manifestPath →
      dotfBackupPath ++ "/" ++ (basename conflict.target_path ++ "_" ++
        formatTimestamp s.now) ≠ manifestPath →
      ∃ entry,
        (resolveConflict s conflict .backup).1 = .ok (some entry) ∧
        (restoreFromBackup (resolveConflict s conflict .backup).2 entry).1 =
          .ok () ∧
        mapLookup (restoreFromBackup (resolveConflict s conflict .backup).2
          entry).2.symlinks conflict.target_path = some v) := by
  constructor
  · intro s conflict c m0 hf hs hm ht hbp hbt
    have hbf := backupFile_file s conflict.target_path c hf hs
    have hLB := (loadManifest_backup_step s conflict.target_path
      (dotfBackupPath ++ "/" ++ (basename conflict.target_path ++ "_" ++
        formatTimestamp s.now)) c ht hbp).trans hm
    have hadd := addBackupEntry_eq _
      { original_path := conflict.target_path,
        backup_path := dotfBackupPath ++ "/" ++
          (basename conflict.target_path ++ "_" ++ formatTimestamp s.now),
        created_at := s.now, file_type := BackupFileType.file } m0 hLB
    dsimp only at hadd
    refine ⟨{ original_path := conflict.target_path,
              backup_path := dotfBackupPath ++ "/" ++
                (basename conflict.target_path ++ "_" ++
                  formatTimestamp s.now),
              created_at := s.now, file_type := BackupFileType.file },
      ?_, ?_, ?_, ?_⟩ <;>
      simp [resolveConflict, hbf, removeExisting_eq, fsRemoveFile, hadd,
        restoreFromBackup, fsCopyFile, saveManifest, fsWrite, fsCreateDirAll,
        mapLookup_mapInsert, mapLookup_mapErase, hbp, hbt]
  · intro s conflict v cv m0 hsv hf hv hm ht hbp
    have hbf := backupFile_symlink s conflict.target_path v cv hsv hf hv
    have hLB := (loadManifest_backup_step s conflict.target_path
      (dotfBackupPath ++ "/" ++ (basename conflict.target_path ++ "_" ++
        formatTimestamp s.now)) cv ht hbp).trans hm
    have hadd := addBackupEntry_eq _
      { original_path := conflict.target_path,
        backup_path := dotfBackupPath ++ "/" ++
          (basename conflict.target_path ++ "_" ++ formatTimestamp s.now),
        created_at := s.now, file_type := BackupFileType.symlink v } m0 hLB
    dsimp only at hadd
    refine ⟨{ original_path := conflict.target_path,
              backup_path := dotfBackupPath ++ "/" ++
                (basename conflict.target_path ++ "_" ++
                  formatTimestamp s.now),
              created_at := s.now, file_type := BackupFileType.symlink v },
      ?_, ?_, ?_⟩ <;>
      simp [resolveConflict, hbf, removeExisting_eq, fsRemoveFile, hadd,
        restoreFromBackup, fsCreateSymlink, saveManifest, fsWrite,
        fsCreateDirAll, mapLookup_mapInsert, mapLookup_mapErase, hbp]

/-- Claim C4 witness: on concrete plain-file and symlink conflicts, Backup
resolution followed by restoration brings back the original content. -/
theorem c4_backup_restore_round_trip_witness :
    (∃ entry,
      (resolveConflict sC2
          { target_path := "/home/u/.bashrc", source_path := "/repo/.bashrc",
            existing_is_symlink := false, existing_target := none }
          .backup).1 = .ok (some entry) ∧
      mapLookup (restoreFromBackup
          (resolveConflict sC2
            { target_path := "/home/u/.bashrc",
              source_path := "/repo/.bashrc",
              existing_is_symlink := false, existing_target := none }
            .backup).2 entry).2.files "/home/u/.bashrc" =
        some (.text "old")) ∧
    (∃ entry,
      (resolveConflict sC7s
          { target_path := "/home/u/.zshrc", source_path := "/repo/.zshrc",
            existing_is_symlink := true, existing_target := some "/old/src" }
          .backup).1 = .ok (some entry) ∧
      mapLookup (restoreFromBackup
          (resolveConflict sC7s
            { target_path := "/home/u/.zshrc",
              source_path := "/repo/.zshrc",
              existing_is_symlink := true,
              existing_target := some "/old/src" }
            .backup).2 entry).2.symlinks "/home/u/.zshrc" =
        some "/old/src") := by
  constructor
  · obtain ⟨entry, h1, -, h3, -⟩ :=
      c4_backup_restore_round_trip.1 sC2
        { target_path := "/home/u/.bashrc", source_path := "/repo/.bashrc",
          existing_is_symlink := false, existing_target := none }
        (.text "old") { entries := [] } rfl rfl rfl (by decide) (by decide)
        (by decide)
    exact ⟨entry, h1, h3⟩
  · obtain ⟨entry, h1, -, h3⟩ :=
      c4_backup_restore_round_trip.2 sC7s
        { target_path := "/home/u/.zshrc", source_path := "/repo/.zshrc",
          existing_is_symlink := true, existing_target := some "/old/src" }
        "/old/src" (.text "x") { entries := [] } rfl rfl rfl rfl (by decide)
        (by decide)
    exact ⟨entry, h1, h3⟩

/-- The classifier always succeeds and never changes the state. -/
theorem getSingleSymlinkStatus_ok (s : St) (op : SymlinkOperation) :
    ∃ info, getSingleSymlinkStatus s op = (.ok info, s) := by
  rcases hL : mapLookup s.symlinks op.target_path with _ | cur
  · by_cases hE : fsExists s op.target_path = true
    · exact ⟨_, getSingleSymlinkStatus_conflict s op hE hL⟩
    · exact ⟨_, getSingleSymlinkStatus_missing s op (by simpa using hE)⟩
  · exact ⟨_, getSingleSymlinkStatus_link s op cur hL⟩

/-- Claim C9: the change-aware status report never fails and never mutates;
per item, the Repository collaborator matters only for declarations
classified Valid (for any other status the reported status is the base
classification, whatever the collaborator does), a positive answer turns
Valid into Modified, and a negative answer or a collaborator failure keeps
the prior status. -/
theorem c9_modified_only_for_valid
    (repo : String → String → Except DotfError Bool) (repoPath : String)
    (s : St) (ops : List SymlinkOperation) :
    (getSymlinkStatusWithChanges repo repoPath s ops).2 = s ∧
    ∃ infos, (getSymlinkStatusWithChanges repo repoPath s ops).1 = .ok infos ∧
      infos.length = ops.length ∧
      ∀ i op info, ops.get? i = some op →
        (getSingleSymlinkStatus s op).1 = .ok info →
        infos.get? i = some
          (if info.status = SymlinkStatus.valid then
            match repo repoPath (relativeSource repoPath op.source_path) with
            | .ok true => { info with status := SymlinkStatus.modified }
            | .ok false => info
            | .error _ => info
          else info) := by
  induction ops with
  | nil =>
    refine ⟨rfl, [], rfl, rfl, ?_⟩
    intro i op info hop
    simp at hop
  | cons op rest ih =>
    obtain ⟨info0, hinfo0⟩ := getSingleSymlinkStatus_ok s op
    obtain ⟨hsnd, infos, hfst, hlen, hchar⟩ := ih
    have hpair : getSymlinkStatusWithChanges repo repoPath s rest =
        (.ok infos, s) := by
      rcases hg : getSymlinkStatusWithChanges repo repoPath s rest with ⟨r, s2⟩
      rw [hg] at hfst hsnd
      simp only at hfst hsnd
      rw [hfst, hsnd]
    have harm : getSymlinkStatusWithChanges repo repoPath s (op :: rest) =
        (.ok ((if info0.status = SymlinkStatus.valid then
            match repo repoPath (relativeSource repoPath op.source_path) with
            | .ok true => { info0 with status := SymlinkStatus.modified }
            | .ok false => info0
            | .error _ => info0
          else info0) :: infos), s) := by
      simp only [getSymlinkStatusWithChanges, hinfo0, hpair]
      by_cases h : info0.status = SymlinkStatus.valid <;> simp [h]
    refine ⟨by rw [harm],
      (if info0.status = SymlinkStatus.valid then
        match repo repoPath (relativeSource repoPath op.source_path) with
        | .ok true => { info0 with status := SymlinkStatus.modified }
        | .ok false => info0
        | .error _ => info0
      else info0) :: infos,
      by rw [harm], by simpa using hlen, ?_⟩
    intro i opi infoi hop hinfoi
    match i with
    | 0 =>
      rw [List.get?_cons_zero] at hop
      injection hop with hop
      subst hop
      rw [hinfo0] at hinfoi
      simp only at hinfoi
      injection hinfoi with hinfoi
      subst hinfoi
      rw [List.get?_cons_zero]
    | Nat.succ j =>
      rw [List.get?_cons_succ] at hop
      rw [List.get?_cons_succ]
      exact hchar j opi infoi hop hinfoi

/-- Unpacking fsExists = false into its three component facts. -/
theorem fsExists_false_parts (s : St) (p : String)
    (h : fsExists s p = false) :
    mapLookup s.files p = none ∧ p ∉ s.dirs ∧
      mapLookup s.symlinks p = none := by
  refine ⟨?_, ?_, ?_⟩
  · rcases hml : mapLookup s.files p with _ | v
    · rfl
    · unfold fsExists at h
      rw [hml] at h
      simp at h
  · intro hmem
    unfold fsExists at h
    simp [hmem] at h
  · rcases hml : mapLookup s.symlinks p with _ | v
    · rfl
    · unfold fsExists at h
      rw [hml] at h
      simp at h

/-- A declaration not classified Conflict has an absent target or a
symlink target. -/
theorem not_conflict_shape (s : St) (op : SymlinkOperation)
    (h : ∃ info, (getSingleSymlinkStatus s op).1 = .ok info ∧
      info.status ≠ SymlinkStatus.conflict) :
    fsExists s op.target_path = false ∨
      (mapLookup s.symlinks op.target_path).isSome = true := by
  obtain ⟨info, hi, hnc⟩ := h
  rcases hL : mapLookup s.symlinks op.target_path with _ | cur
  · by_cases hE : fsExists s op.target_path = true
    · rw [getSingleSymlinkStatus_conflict s op hE hL] at hi
      simp only at hi
      injection hi with hi
      subst hi
      simp at hnc
    · left
      simpa using hE
  · right
    simp [hL]

/-- The clean-batch guarantee for remove_symlinks: when no declaration is
classified Conflict (and no target is a directory), the whole batch
succeeds, every declared target is absent afterwards, and nothing else is
touched. -/
theorem removeSymlinks_clean (ops : List SymlinkOperation) : ∀ (s : St),
    (∀ op ∈ ops,
      (fsExists s op.target_path = false ∨
        (mapLookup s.symlinks op.target_path).isSome = true) ∧
      op.target_path ∉ s.dirs) →
    ∃ s', removeSymlinks s ops = (.ok (), s') ∧
      (∀ op ∈ ops, mapLookup s'.files op.target_path = none ∧
        mapLookup s'.symlinks op.target_path = none) ∧
      (∀ q, (∀ op ∈ ops, op.target_path ≠ q) →
        mapLookup s'.files q = mapLookup s.files q ∧
        mapLookup s'.symlinks q = mapLookup s.symlinks q) ∧
      s'.dirs = s.dirs ∧ s'.prompts = s.prompts ∧ s'.now = s.now := by
  induction ops with
  | nil =>
    intro s _
    exact ⟨s, rfl, by simp, fun q _ => ⟨rfl, rfl⟩, rfl, rfl, rfl⟩
  | cons op rest ih =>
    intro s H
    obtain ⟨hshape, hdir⟩ := H op (List.mem_cons_self op rest)
    rcases hshape with hfalse | hsym
    · obtain ⟨hf0, -, hs0⟩ := fsExists_false_parts s op.target_path hfalse
      have harm : removeSymlinks s (op :: rest) = removeSymlinks s rest := by
        simp only [removeSymlinks,
          getSingleSymlinkStatus_missing s op hfalse]
      have H1 : ∀ op' ∈ rest,
          (fsExists s op'.target_path = false ∨
            (mapLookup s.symlinks op'.target_path).isSome = true) ∧
          op'.target_path ∉ s.dirs :=
        fun op' hop' => H op' (List.mem_cons_of_mem _ hop')
      obtain ⟨s', hrem, habs, hpres, hdirs, hpr, hnw⟩ := ih s H1
      refine ⟨s', by rw [harm, hrem], ?_, ?_, hdirs, hpr, hnw⟩
      · intro op' hop'
        rcases List.mem_cons.mp hop' with heq | hmem
        · subst heq
          by_cases hall : ∀ op2 ∈ rest, op2.target_path ≠ op'.target_path
          · obtain ⟨hpf, hps⟩ := hpres op'.target_path hall
            exact ⟨hpf.trans hf0, hps.trans hs0⟩
          · push_neg at hall
            obtain ⟨op2, hop2, heq2⟩ := hall
            have := habs op2 hop2
            rwa [heq2] at this
        · exact habs op' hmem
      · intro q hq
        exact hpres q (fun op2 hm => hq op2 (List.mem_cons_of_mem _ hm))
    · obtain ⟨cur, hc⟩ := Option.isSome_iff_exists.mp hsym
      have hlink := getSingleSymlinkStatus_link s op cur hc
      have harm : removeSymlinks s (op :: rest) =
          removeSymlinks (fsRemoveFile s op.target_path) rest := by
        simp only [removeSymlinks, hlink]
        by_cases h1 : fsExists s op.source_path = false
        · simp [h1]
        · cases hcb : (cur == op.source_path) <;> simp [h1, hcb]
      have H1 : ∀ op' ∈ rest,
          (fsExists (fsRemoveFile s op.target_path) op'.target_path = false ∨
            (mapLookup (fsRemoveFile s op.target_path).symlinks
              op'.target_path).isSome = true) ∧
          op'.target_path ∉ (fsRemoveFile s op.target_path).dirs := by
        intro op' hop'
        obtain ⟨hshape', hdir'⟩ := H op' (List.mem_cons_of_mem _ hop')
        refine ⟨?_, by simpa [fsRemoveFile] using hdir'⟩
        by_cases heq : op'.target_path = op.target_path
        · left
          simp [fsRemoveFile, fsExists, mapLookup_mapErase, heq, hdir]
        · rcases hshape' with hfalse' | hsym'
          · left
            obtain ⟨ha, hb, hcc⟩ := fsExists_false_parts s op'.target_path
              hfalse'
            simp [fsRemoveFile, fsExists, mapLookup_mapErase, heq, ha, hb, hcc]
          · right
            simpa [fsRemoveFile, mapLookup_mapErase, heq] using hsym'
      obtain ⟨s', hrem, habs, hpres, hdirs, hpr, hnw⟩ :=
        ih (fsRemoveFile s op.target_path) H1
      refine ⟨s', by rw [harm, hrem], ?_, ?_,
        by simpa [fsRemoveFile] using hdirs,
        by simpa [fsRemoveFile] using hpr,
        by simpa [fsRemoveFile] using hnw⟩
      · intro op' hop'
        rcases List.mem_cons.mp hop' with heq | hmem
        · subst heq
          by_cases hall : ∀ op2 ∈ rest, op2.target_path ≠ op'.target_path
          · obtain ⟨hpf, hps⟩ := hpres op'.target_path hall
            refine ⟨hpf.trans ?_, hps.trans ?_⟩
            · simp [fsRemoveFile, mapLookup_mapErase]
            · simp [fsRemoveFile, mapLookup_mapErase]
          · push_neg at hall
            obtain ⟨op2, hop2, heq2⟩ := hall
            have := habs op2 hop2
            rwa [heq2] at this
        · exact habs op' hmem
      · intro q hq
        have hqt : op.target_path ≠ q :=
          hq op (List.mem_cons_self op rest)
        obtain ⟨hpf, hps⟩ :=
          hpres q (fun op2 hm => hq op2 (List.mem_cons_of_mem _ hm))
        have hqt' : ¬(q = op.target_path) := fun h => hqt h.symm
        constructor
        · rw [hpf]
          simp [fsRemoveFile, mapLookup_mapErase, hqt']
        · rw [hps]
          simp [fsRemoveFile, mapLookup_mapErase, hqt']

/-- Claim C8: remove_symlinks removes the target of every declaration
classified Valid, Broken, InvalidTarget, or Modified, leaves a Missing
declaration's (absent) target and everything else untouched, and fails
with an error on a declaration classified Conflict, without removing the
occupant. -/
theorem c8_remove_symlinks_spec :
    (∀ (s : St) (ops : List SymlinkOperation),
      (∀ op ∈ ops,
        (∃ info, (getSingleSymlinkStatus s op).1 = .ok info ∧
          info.status ≠ SymlinkStatus.conflict) ∧
        op.target_path ∉ s.dirs) →
      ∃ s', removeSymlinks s ops = (.ok (), s') ∧
        (∀ op ∈ ops, mapLookup s'.files op.target_path = none ∧
          mapLookup s'.symlinks op.target_path = none) ∧
        (∀ q, (∀ op ∈ ops, op.target_path ≠ q) →
          mapLookup s'.files q = mapLookup s.files q ∧
          mapLookup s'.symlinks q = mapLookup s.symlinks q) ∧
        s'.dirs = s.dirs ∧ s'.prompts = s.prompts ∧ s'.now = s.now) ∧
    (∀ (s : St) (op : SymlinkOperation) (rest : List SymlinkOperation)
        (info : SymlinkInfo),
      (getSingleSymlinkStatus s op).1 = .ok info →
      info.status = SymlinkStatus.conflict →
      removeSymlinks s (op :: rest) =
        (.error (.operation ("Cannot remove \x27" ++ op.target_path ++
          "\x27: not a symlink")), s)) := by
  constructor
  · intro s ops H
    exact removeSymlinks_clean ops s
      (fun op hop => ⟨not_conflict_shape s op (H op hop).1, (H op hop).2⟩)
  · intro s op rest info hi hconf
    rcases hL : mapLookup s.symlinks op.target_path with _ | cur
    · by_cases hE : fsExists s op.target_path = true
      · simp only [removeSymlinks,
          getSingleSymlinkStatus_conflict s op hE hL]
      · rw [getSingleSymlinkStatus_missing s op (by simpa using hE)] at hi
        simp only at hi
        injection hi with hi
        subst hi
        simp at hconf
    · rw [getSingleSymlinkStatus_link s op cur hL] at hi
      simp only at hi
      injection hi with hi
      subst hi
      by_cases h1 : fsExists s op.source_path = false
      · simp [h1] at hconf
      · cases hcb : (cur == op.source_path) <;> simp [h1, hcb] at hconf

/-- Claim C8 witness: removing a concrete valid symlink clears its target,
and removing a declaration whose target is a plain file fails with the
expected error and leaves the state unchanged. -/
theorem c8_remove_symlinks_spec_witness :
    (∃ s', removeSymlinks sC7s [opC9] = (.ok (), s') ∧
      mapLookup s'.symlinks "/home/u/.zshrc" = none) ∧
    removeSymlinks sC2 [opC2] =
      (.error (.operation ("Cannot remove \x27" ++ "/home/u/.bashrc" ++
        "\x27: not a symlink")), sC2) := by
  constructor
  · have H : ∀ op ∈ [opC9],
        (∃ info, (getSingleSymlinkStatus sC7s op).1 = .ok info ∧
          info.status ≠ SymlinkStatus.conflict) ∧
        op.target_path ∉ sC7s.dirs := by
      intro op hop
      simp only [List.mem_singleton] at hop
      subst hop
      refine ⟨⟨{ source_path := "/old/src",
                 target_path := "/home/u/.zshrc",
                 status := .valid,
                 current_target := some "/old/src" }, rfl,
        by decide⟩, by simp [sC7s]⟩
    obtain ⟨s', hrem, habs, -⟩ := c8_remove_symlinks_spec.1 sC7s [opC9] H
    exact ⟨s', hrem, (habs opC9 (List.mem_singleton_self opC9)).2⟩
  · exact c8_remove_symlinks_spec.2 sC2 opC2 []
      { source_path := "/repo/.bashrc", target_path := "/home/u/.bashrc",
        status := .conflict, current_target := none } rfl rfl

/-- Restoring a restorable entry succeeds and touches only its original
path (the key): a file backup is copied back, a symlink is recreated, a
directory is re-created; all other paths keep their files, symlinks and
directory membership. -/
theorem restoreStep_ok (s : St) (k : String) (e : BackupEntry)
    (horig : e.original_path = k)
    (hrest : match e.file_type with
      | BackupFileType.file =>
        (mapLookup s.files e.backup_path).isSome = true
      | _ => True)
    (hbk : e.backup_path ≠ k) :
    ∃ s1, restoreSpecificFileFromEntry s k e = (.ok (), s1) ∧
      ∀ q, q ≠ k → mapLookup s1.files q = mapLookup s.files q ∧
        mapLookup s1.symlinks q = mapLookup s.symlinks q ∧
        (q ∈ s1.dirs ↔ q ∈ s.dirs) := by
  subst horig
  rcases hft : e.file_type with _ | _ | v
  · simp only [hft] at hrest
    obtain ⟨cont, hcont⟩ := Option.isSome_iff_exists.mp hrest
    by_cases hex : fsExists s e.original_path = true
    · refine ⟨{ files := mapInsert (mapErase s.files e.original_path)
                  e.original_path cont,
                dirs := s.dirs,
                symlinks := mapErase s.symlinks e.original_path,
                prompts := s.prompts, now := s.now }, ?_, ?_⟩
      · simp [restoreSpecificFileFromEntry, hex, restoreFromBackup, hft,
          fsCopyFile, fsRemoveFile, mapLookup_mapErase, hbk, hcont]
      · intro q hq
        refine ⟨?_, ?_, Iff.rfl⟩ <;>
          simp [mapLookup_mapInsert, mapLookup_mapErase, hq]
    · refine ⟨{ files := mapInsert s.files e.original_path cont,
                dirs := s.dirs, symlinks := s.symlinks,
                prompts := s.prompts, now := s.now }, ?_, ?_⟩
      · simp [restoreSpecificFileFromEntry, hex, restoreFromBackup, hft,
          fsCopyFile, hcont]
      · intro q hq
        refine ⟨?_, rfl, Iff.rfl⟩
        simp [mapLookup_mapInsert, hq]
  · by_cases hex : fsExists s e.original_path = true
    · refine ⟨{ files := mapErase s.files e.original_path,
                dirs := s.dirs ++ [e.original_path],
                symlinks := mapErase s.symlinks e.original_path,
                prompts := s.prompts, now := s.now }, ?_, ?_⟩
      · simp [restoreSpecificFileFromEntry, hex, restoreFromBackup, hft,
          fsCreateDirAll, fsRemoveFile]
      · intro q hq
        refine ⟨?_, ?_, ?_⟩ <;>
          simp [mapLookup_mapErase, List.mem_append, hq]
    · refine ⟨{ files := s.files, dirs := s.dirs ++ [e.original_path],
                symlinks := s.symlinks,
                prompts := s.prompts, now := s.now }, ?_, ?_⟩
      · simp [restoreSpecificFileFromEntry, hex, restoreFromBackup, hft,
          fsCreateDirAll]
      · intro q hq
        exact ⟨rfl, rfl, by simp [List.mem_append, hq]⟩
  · by_cases hex : fsExists s e.original_path = true
    · refine ⟨{ files := mapErase s.files e.original_path, dirs := s.dirs,
                symlinks := mapInsert (mapErase s.symlinks e.original_path)
                  e.original_path v,
                prompts := s.prompts, now := s.now }, ?_, ?_⟩
      · simp [restoreSpecificFileFromEntry, hex, restoreFromBackup, hft,
          fsCreateSymlink, fsRemoveFile]
      · intro q hq
        refine ⟨?_, ?_, Iff.rfl⟩ <;>
          simp [mapLookup_mapInsert, mapLookup_mapErase, hq]
    · refine ⟨{ files := s.files, dirs := s.dirs,
                symlinks := mapInsert s.symlinks e.original_path v,
                prompts := s.prompts, now := s.now }, ?_, ?_⟩
      · simp [restoreSpecificFileFromEntry, hex, restoreFromBackup, hft,
          fsCreateSymlink]
      · intro q hq
        exact ⟨rfl, by simp [mapLookup_mapInsert, hq], Iff.rfl⟩

/-- Restoring a file entry whose backup file is absent fails and touches
only the original path. -/
theorem restoreStep_fail (s : St) (k : String) (e : BackupEntry)
    (horig : e.original_path = k)
    (hft : e.file_type = BackupFileType.file)
    (hbf : mapLookup s.files e.backup_path = none)
    (hbs : mapLookup s.symlinks e.backup_path = none)
    (hbk : e.backup_path ≠ k) :
    ∃ s1 err, restoreSpecificFileFromEntry s k e = (.error err, s1) ∧
      ∀ q, q ≠ k → mapLookup s1.files q = mapLookup s.files q ∧
        mapLookup s1.symlinks q = mapLookup s.symlinks q ∧
        (q ∈ s1.dirs ↔ q ∈ s.dirs) := by
  subst horig
  by_cases hex : fsExists s e.original_path = true
  · refine ⟨{ files := mapErase s.files e.original_path, dirs := s.dirs,
              symlinks := mapErase s.symlinks e.original_path,
              prompts := s.prompts, now := s.now },
      .ioError "No such file or directory", ?_, ?_⟩
    · simp [restoreSpecificFileFromEntry, hex, restoreFromBackup, hft,
        fsCopyFile, fsRemoveFile, mapLookup_mapErase, hbk, hbf, hbs]
    · intro q hq
      refine ⟨?_, ?_, Iff.rfl⟩ <;> simp [mapLookup_mapErase, hq]
  · refine ⟨s, .ioError "No such file or directory", ?_, ?_⟩
    · simp [restoreSpecificFileFromEntry, hex, restoreFromBackup, hft,
        fsCopyFile, hbf, hbs]
    · intro q _
      exact ⟨rfl, rfl, Iff.rfl⟩

/-- Iterating the restore loop over entries that are all restorable: every
one succeeds, no failures accumulate, and paths that are not keys keep
their files, symlinks and directory membership. -/
theorem restoreAllLoop_ok (es : List (String × BackupEntry)) : ∀ (s : St),
    (∀ ke ∈ es, ke.2.original_path = ke.1) →
    (∀ ke ∈ es, match ke.2.file_type with
      | BackupFileType.file =>
        (mapLookup s.files ke.2.backup_path).isSome = true
      | _ => True) →
    (∀ ke ∈ es, ∀ ke2 ∈ es, ke2.2.backup_path ≠ ke.1) →
    ∃ s', restoreAllLoop s es = (es.length, [], s') ∧
      ∀ q, (∀ ke ∈ es, ke.1 ≠ q) →
        mapLookup s'.files q = mapLookup s.files q ∧
        mapLookup s'.symlinks q = mapLookup s.symlinks q ∧
        (q ∈ s'.dirs ↔ q ∈ s.dirs) := by
  induction es with
  | nil =>
    intro s _ _ _
    exact ⟨s, rfl, fun q _ => ⟨rfl, rfl, Iff.rfl⟩⟩
  | cons ke rest ih =>
    obtain ⟨k, e⟩ := ke
    intro s hOrig hRest hDisj
    have hbk : e.backup_path ≠ k :=
      hDisj (k, e) (List.mem_cons_self _ _) (k, e) (List.mem_cons_self _ _)
    obtain ⟨s1, hstep, hpres1⟩ := restoreStep_ok s k e
      (hOrig (k, e) (List.mem_cons_self _ _))
      (hRest (k, e) (List.mem_cons_self _ _)) hbk
    have hR1 : ∀ ke2 ∈ rest, match ke2.2.file_type with
        | BackupFileType.file =>
          (mapLookup s1.files ke2.2.backup_path).isSome = true
        | _ => True := by
      intro ke2 hke2
      have hbne : ke2.2.backup_path ≠ k :=
        hDisj (k, e) (List.mem_cons_self _ _) ke2
          (List.mem_cons_of_mem _ hke2)
      obtain ⟨hpf, -, -⟩ := hpres1 ke2.2.backup_path hbne
      have horig2 := hRest ke2 (List.mem_cons_of_mem _ hke2)
      rcases hft2 : ke2.2.file_type with _ | _ | v
      · simp only [hft2] at horig2 ⊢
        rw [hpf]
        exact horig2
      · simp [hft2]
      · simp [hft2]
    obtain ⟨s', hloop, hpres'⟩ := ih s1
      (fun a ha => hOrig a (List.mem_cons_of_mem _ ha)) hR1
      (fun a ha b hb => hDisj a (List.mem_cons_of_mem _ ha) b
        (List.mem_cons_of_mem _ hb))
    refine ⟨s', ?_, ?_⟩
    · simp [restoreAllLoop, hstep, hloop]
    · intro q hq
      have hqk : q ≠ k := fun h =>
        hq (k, e) (List.mem_cons_self _ _) h.symm
      obtain ⟨h1f, h1s, h1d⟩ := hpres1 q hqk
      obtain ⟨h2f, h2s, h2d⟩ := hpres'
        q (fun a ha => hq a (List.mem_cons_of_mem _ ha))
      exact ⟨h2f.trans h1f, h2s.trans h1s, h2d.trans h1d⟩

/-- The restore loop distributes over list append: counts add, failure
lists concatenate, and the state threads through. -/
theorem restoreAllLoop_append (l1 l2 : List (String × BackupEntry)) :
    ∀ (s : St), restoreAllLoop s (l1 ++ l2) =
      ((restoreAllLoop s l1).1 +
        (restoreAllLoop (restoreAllLoop s l1).2.2 l2).1,
       (restoreAllLoop s l1).2.1 ++
        (restoreAllLoop (restoreAllLoop s l1).2.2 l2).2.1,
       (restoreAllLoop (restoreAllLoop s l1).2.2 l2).2.2) := by
  induction l1 with
  | nil => intro s; simp [restoreAllLoop]
  | cons ke rest ih =>
    intro s
    obtain ⟨k, e⟩ := ke
    simp only [List.cons_append, restoreAllLoop]
    rcases h : restoreSpecificFileFromEntry s k e with ⟨r, s1⟩
    cases r with
    | ok u => simp [ih s1]; omega
    | error err => simp [ih s1]

/-- A successfully loaded non-empty manifest is physically stored at the
manifest path. -/
theorem loadManifest_stored (s : St) (m : BackupManifest)
    (h : loadManifest s = .ok m) (hne : m.entries ≠ []) :
    mapLookup s.files manifestPath = some (.manifestData m) := by
  by_cases hE : fsExists s manifestPath = true
  · rcases hml : mapLookup s.files manifestPath with _ | c
    · simp [loadManifest, hE, fsReadToString, hml] at h
    · rcases c with t | m2
      · simp [loadManifest, hE, fsReadToString, hml] at h
      · have : m2 = m := by
          simpa [loadManifest, hE, fsReadToString, hml] using h
        simp [hml, this]
  · have : m = { entries := [] } := by
      have hE' : fsExists s manifestPath = false := by simpa using hE
      simpa [loadManifest, hE'] using h.symm
    rw [this] at hne
    simp at hne

/-- A manifest stored at the manifest path loads back. -/
theorem loadManifest_of_stored (s : St) (m : BackupManifest)
    (h : mapLookup s.files manifestPath = some (.manifestData m)) :
    loadManifest s = .ok m := by
  simp [loadManifest, fsExists, fsReadToString, h]

/-- Claim C5: on a manifest in which exactly one entry's backup file is
absent (the others restorable, originals keyed consistently and disjoint
from backup locations and from the manifest file), restore_all_backups
keeps going past the failure, restores the other N-1 entries, reports
exactly one per-path failure for the broken entry, and leaves the
persisted manifest with all N entries unchanged (it is cleared only when
every restoration succeeds). -/
theorem c5_restore_all_continues_past_failure
    (s : St) (pre post : List (String × BackupEntry)) (k0 : String)
    (e0 : BackupEntry)
    (hload : loadManifest s = .ok { entries := pre ++ (k0, e0) :: post })
    (hOrig : ∀ ke ∈ pre ++ (k0, e0) :: post, ke.2.original_path = ke.1)
    (hKeysMp : ∀ ke ∈ pre ++ (k0, e0) :: post, ke.1 ≠ manifestPath)
    (hDisj : ∀ ke ∈ pre ++ (k0, e0) :: post,
      ∀ ke2 ∈ pre ++ (k0, e0) :: post, ke2.2.backup_path ≠ ke.1)
    (hOk : ∀ ke ∈ pre ++ post, match ke.2.file_type with
      | BackupFileType.file =>
        (mapLookup s.files ke.2.backup_path).isSome = true
      | _ => True)
    (hft0 : e0.file_type = BackupFileType.file)
    (hbf0 : mapLookup s.files e0.backup_path = none)
    (hbs0 : mapLookup s.symlinks e0.backup_path = none) :
    ∃ res s', restoreAllBackups s = (.ok res, s') ∧
      res.restored_count = (pre ++ (k0, e0) :: post).length - 1 ∧
      (∃ msg, res.failed_restorations = [{ path := k0, error := msg }]) ∧
      loadManifest s' = .ok { entries := pre ++ (k0, e0) :: post } := by
  have hmidmem : (k0, e0) ∈ pre ++ (k0, e0) :: post :=
    List.mem_append_right _ (List.mem_cons_self _ _)
  have hbk0 : e0.backup_path ≠ k0 := hDisj (k0, e0) hmidmem (k0, e0) hmidmem
  -- the prefix loop succeeds
  obtain ⟨s1, hloop1, hpres1⟩ := restoreAllLoop_ok pre s
    (fun a ha => hOrig a (List.mem_append_left _ ha))
    (fun a ha => hOk a (List.mem_append_left _ ha))
    (fun a ha b hb => hDisj a (List.mem_append_left _ ha) b
      (List.mem_append_left _ hb))
  -- the failing entry fails in s1
  have hbp0_not_pre_key : ∀ ke ∈ pre, ke.1 ≠ e0.backup_path := by
    intro ke hke h
    exact hDisj ke (List.mem_append_left _ hke) (k0, e0) hmidmem h.symm
  obtain ⟨hb1f, hb1s, -⟩ := hpres1 e0.backup_path hbp0_not_pre_key
  obtain ⟨s2, err0, hstep0, hpres2⟩ := restoreStep_fail s1 k0 e0
    (hOrig (k0, e0) hmidmem) hft0 (hb1f.trans hbf0) (hb1s.trans hbs0) hbk0
  -- the suffix loop succeeds in s2
  have hR3 : ∀ ke ∈ post, match ke.2.file_type with
      | BackupFileType.file =>
        (mapLookup s2.files ke.2.backup_path).isSome = true
      | _ => True := by
    intro ke hke
    have hmem : ke ∈ pre ++ (k0, e0) :: post :=
      List.mem_append_right _ (List.mem_cons_of_mem _ hke)
    have hbne_pre : ∀ ke2 ∈ pre, ke2.1 ≠ ke.2.backup_path := by
      intro ke2 hke2 h
      exact hDisj ke2 (List.mem_append_left _ hke2) ke hmem h.symm
    have hbne_k0 : ke.2.backup_path ≠ k0 := hDisj (k0, e0) hmidmem ke hmem
    obtain ⟨h1f, -, -⟩ := hpres1 ke.2.backup_path hbne_pre
    obtain ⟨h2f, -, -⟩ := hpres2 ke.2.backup_path hbne_k0
    have horig := hOk ke (List.mem_append_right _ hke)
    rcases hft2 : ke.2.file_type with _ | _ | v
    · simp only [hft2] at horig ⊢
      rw [h2f, h1f]
      exact horig
    · simp [hft2]
    · simp [hft2]
  obtain ⟨s3, hloop3, hpres3⟩ := restoreAllLoop_ok post s2
    (fun a ha => hOrig a
      (List.mem_append_right _ (List.mem_cons_of_mem _ ha))) hR3
    (fun a ha b hb => hDisj a
      (List.mem_append_right _ (List.mem_cons_of_mem _ ha)) b
      (List.mem_append_right _ (List.mem_cons_of_mem _ hb)))
  -- assemble the loop over the whole manifest
  have hloopAll : restoreAllLoop s (pre ++ (k0, e0) :: post) =
      (pre.length + post.length,
       [{ path := k0, error := errMessage err0 }], s3) := by
    rw [restoreAllLoop_append pre ((k0, e0) :: post) s, hloop1]
    simp [restoreAllLoop, hstep0, hloop3]
  have hne : (pre ++ (k0, e0) :: post).isEmpty = false := by
    cases pre <;> simp [List.isEmpty]
  have hmain : restoreAllBackups s =
      (.ok { restored_count := pre.length + post.length,
             failed_restorations :=
               [{ path := k0, error := errMessage err0 }] }, s3) := by
    simp only [restoreAllBackups, hload, hne, hloopAll]
    simp
  refine ⟨_, s3, hmain, ?_, ⟨errMessage err0, rfl⟩, ?_⟩
  · simp [List.length_append]
  · have hstored := loadManifest_stored s _ hload (by cases pre <;> simp)
    have hmp_pre : ∀ ke ∈ pre, ke.1 ≠ manifestPath :=
      fun ke hke => hKeysMp ke (List.mem_append_left _ hke)
    have hmp_k0 : manifestPath ≠ k0 :=
      fun h => hKeysMp (k0, e0) hmidmem h.symm
    have hmp_post : ∀ ke ∈ post, ke.1 ≠ manifestPath :=
      fun ke hke => hKeysMp ke
        (List.mem_append_right _ (List.mem_cons_of_mem _ hke))
    obtain ⟨h1f, -, -⟩ := hpres1 manifestPath
      (fun ke hke h => hmp_pre ke hke h)
    obtain ⟨h2f, -, -⟩ := hpres2 manifestPath hmp_k0
    obtain ⟨h3f, -, -⟩ := hpres3 manifestPath
      (fun ke hke h => hmp_post ke hke h)
    apply loadManifest_of_stored
    rw [h3f, h2f, h1f]
    exact hstored

/-- Claim C5 witness: on the concrete two-entry manifest with one backup
file missing, one entry is restored, one per-path failure is reported, and
the manifest still holds both entries. -/
theorem c5_restore_all_continues_past_failure_witness :
    ∃ res s', restoreAllBackups sC5 = (.ok res, s') ∧
      res.restored_count = 1 ∧
      (∃ msg, res.failed_restorations =
        [{ path := "/home/u/b", error := msg }]) ∧
      loadManifest s' = .ok { entries :=
        [("/home/u/a", entryC5a), ("/home/u/b", entryC5b)] } := by
  obtain ⟨res, s', h1, h2, h3, h4⟩ :=
    c5_restore_all_continues_past_failure sC5 [("/home/u/a", entryC5a)] []
      "/home/u/b" entryC5b rfl (by decide) (by decide) (by decide)
      (by
        intro ke hke
        simp only [List.append_nil, List.mem_singleton] at hke
        subst hke
        rfl)
      rfl rfl rfl
  exact ⟨res, s', h1, by simpa using h2, h3, h4⟩

/-- Claim C9 witness: on the concrete valid symlink with an
always-modified collaborator, the reported status for the item is
Modified. -/
theorem c9_modified_only_for_valid_witness :
    ∃ infos,
      (getSymlinkStatusWithChanges repoAlways "/repo" sC7s [opC9]).1 =
        .ok infos ∧
      infos.get? 0 = some
        { source_path := "/old/src", target_path := "/home/u/.zshrc",
          status := .modified, current_target := some "/old/src" } := by
  obtain ⟨-, infos, hfst, -, hchar⟩ :=
    c9_modified_only_for_valid repoAlways "/repo" sC7s [opC9]
  refine ⟨infos, hfst, ?_⟩
  have h := hchar 0 opC9
    { source_path := "/old/src", target_path := "/home/u/.zshrc",
      status := .valid, current_target := some "/old/src" } rfl rfl
  simpa [repoAlways] using h

/-- Claim C7 witness: concrete backups of a plain file and of a symlink
succeed with the expected file types. -/
theorem c7_backup_file_spec_witness :
    (∃ entry s1, backupFile sC2 "/home/u/.bashrc" = (.ok entry, s1) ∧
      entry.file_type = .file) ∧
    (∃ entry s1, backupFile sC7s "/home/u/.zshrc" = (.ok entry, s1) ∧
      entry.file_type = .symlink "/old/src") := by
  constructor
  · obtain ⟨entry, s1, h1, -, -, -, h5, -, -⟩ :=
      c7_backup_file_spec.1 sC2 "/home/u/.bashrc" (.text "old") rfl rfl
        (by decide)
    exact ⟨entry, s1, h1, h5⟩
  · obtain ⟨entry, s1, h1, -, -, -, h5, -, -⟩ :=
      c7_backup_file_spec.2 sC7s "/home/u/.zshrc" "/old/src" (.text "x")
        rfl rfl rfl (by decide)
    exact ⟨entry, s1, h1, h5⟩

end Dotf
